import Mathlib

/-!
# Verification of `src/hooks/usePhotoGallery_new.ts`

A shallow embedding of the photo-gallery core: the `usePhotoGallery` hook's
operations (`savePicture`, `takePhoto`, `deletePhoto`, `loadSaved`) and the
`base64FromPath` helper, modelled as pure functions over an explicit world
state (Index Store + Blob Store) and an environment fixing the outcome of
every external call (camera, filesystem, fetch, FileReader, preferences).

Modelling conventions:
* JavaScript promises under the single-threaded cooperative model: each
  external call's effect is applied at its call site; an `await` that rejects
  aborts the surrounding async function there; a call whose promise is
  discarded (the two un-awaited `Preferences.set` calls) still has its effect
  applied at the call site, but its failure does not reject the caller.
* `JSON.stringify` / `JSON.parse` on the photo list: the Index Store holds the
  structured list (`Option (List UserPhoto)`); `serializePhotos` below gives
  the concrete serialized text, and is applied in statements that speak about
  the serialized value. `undefined` optional fields are `Option.none` and are
  omitted by the serializer, as `JSON.stringify` omits them.
* React state: the hook's `photos` array is threaded explicitly; a
  `setPhotos` call is recorded as an event and yields the operation's
  resulting list.
* Every external call and state update is recorded in an event trace, so that
  ordering claims (what happened before which suspension point) are statable.
-/

/-- Record `UserPhoto` from the source: `filepath: string`, `webviewPath?: string`. -/
structure UserPhoto where
  filepath : String
  webviewPath : Option String
deriving Repr, DecidableEq

/-- Capacitor `Photo` as used by the source: `path?` (native) and `webPath?`
(browser) are the only fields read. -/
structure Photo where
  path : Option String
  webPath : Option String
deriving Repr, DecidableEq

/-- A fetched blob: MIME type and byte content (bytes as `Nat`s < 256). -/
structure JsBlob where
  mime : String
  bytes : List Nat
deriving Repr, DecidableEq

/-- Failure modes of the external calls, following the spec taxonomy (§7):
user cancellation / permission denial from the camera, storage `IOError`,
`NotFound` from blob read/delete, fetch failure, and the two rejection paths
inside `base64FromPath` (reader error; `reject('method did not return a
string')`). -/
inductive Err where
  | userCancelled
  | permissionDenied
  | ioError
  | notFound
  | fetchFailed
  | readerError
  | notAString
deriving Repr, DecidableEq

/-- Observable events, in program order: each external call and each
`setPhotos` update, recorded at its call site. -/
inductive Event where
  | capture
  | fsRead (path : String)
  | jsFetch (url : String)
  | fsWrite (name : String) (data : String)
  | indexWrite (value : List UserPhoto)
  | indexRead
  | blobDelete (name : String)
  | setPhotos (l : List UserPhoto)
deriving Repr, DecidableEq

/-- Durable state: the Index Store's value under the single key `"photos"`
(`PHOTO_STORAGE`), and the Blob Store (`Directory.Data`) as an association
list from file name to stored string data. -/
structure World where
  index : Option (List UserPhoto)
  blobs : List (String × String)
deriving Repr, DecidableEq

/-- The fixed Preferences key (`const PHOTO_STORAGE = 'photos'`). -/
def PHOTO_STORAGE : String := "photos"

/-- Outcomes of the external calls for one run. `isHybrid` is
`isPlatform('hybrid')`, constant for the process lifetime. -/
structure Env where
  isHybrid : Bool
  /-- Result of `Camera.getPhoto(...)`. -/
  cameraResult : Except Err Photo
  /-- Result of `Filesystem.readFile(\x7bpath\x7d)` on the camera's temp path (no
  `directory` option), used by `savePicture` on hybrid. -/
  readCameraFile : String → Except Err String
  /-- Result of `fetch(path)` + `response.blob()` inside `base64FromPath`. -/
  fetchBlob : String → Except Err JsBlob
  /-- Whether the `FileReader` fires `onerror` instead of `onload`. -/
  readerFails : Bool
  /-- Whether `reader.result` is not a string (`typeof reader.result !== 'string'`). -/
  readerNonString : Bool
  /-- Whether `Filesystem.writeFile` succeeds. -/
  writeFileOk : Bool
  /-- The `savedFile.uri` returned by a successful `Filesystem.writeFile` of the
  given name. -/
  writeUri : String → String
  /-- Whether the (un-awaited) `Preferences.set` write completes. -/
  indexSetOk : Bool
  /-- The rewrite `Capacitor.convertFileSrc`. -/
  convertFileSrc : String → String
  /-- The timestamp `Date.now()`. -/
  now : Nat

/-- Base64 alphabet (RFC 4648). -/
def base64Table : List Char :=
  "ABCDEFGHIJKLMNOPQRSTUVWXYZabcdefghijklmnopqrstuvwxyz0123456789+/".data

/-- The base64 digit for a 6-bit value. -/
def b64Char (n : Nat) : Char := base64Table.getD n 'A'

/-- Base64 encoding of a byte sequence, with `=` padding. -/
def base64encode : List Nat → List Char
  | [] => []
  | [a] => [b64Char (a / 4), b64Char (a % 4 * 16), '=', '=']
  | [a, b] => [b64Char (a / 4), b64Char (a % 4 * 16 + b / 16),
               b64Char (b % 16 * 4), '=']
  | a :: b :: c :: rest =>
      b64Char (a / 4) :: b64Char (a % 4 * 16 + b / 16) ::
      b64Char (b % 16 * 4 + c / 64) :: b64Char (c % 64) :: base64encode rest

/-- Base64 encoding as a `String`. -/
def base64String (bytes : List Nat) : String := String.mk (base64encode bytes)

/-- The data URL produced by `FileReader.readAsDataURL` on a blob. -/
def readAsDataURL (b : JsBlob) : String :=
  "data:" ++ b.mime ++ ";base64," ++ base64String b.bytes

/-- Helper `base64FromPath(path)` from the source: `fetch` the path, read the blob
with `FileReader.readAsDataURL`; resolve with `reader.result` when it is a
string, reject with the reader's error on `onerror`, and reject with
`'method did not return a string'` otherwise. -/
def base64FromPath (env : Env) (path : String) : Except Err String :=
  match env.fetchBlob path with
  | .error e => .error e
  | .ok b =>
      if env.readerFails then .error .readerError
      else if env.readerNonString then .error .notAString
      else .ok (readAsDataURL b)

/-- Blob Store lookup by name (first match, but `blobInsert` keeps names
unique). -/
def blobGet : List (String × String) → String → Option String
  | [], _ => none
  | (n, d) :: rest, name => if n = name then some d else blobGet rest name

/-- Remove every entry of a name from the Blob Store. -/
def blobRemove (blobs : List (String × String)) (name : String) :
    List (String × String) :=
  blobs.filter (fun p => p.1 ≠ name)

/-- Write: `Filesystem.writeFile` overwrites an existing file of the same name. -/
def blobInsert (blobs : List (String × String)) (name data : String) :
    List (String × String) :=
  (name, data) :: blobRemove blobs name

/-- Read: `Filesystem.readFile(\x7bpath, directory: Directory.Data\x7d)` resolves
with the stored data, rejects with `NotFound` when the file is absent. -/
def blobRead (w : World) (name : String) : Except Err String :=
  match blobGet w.blobs name with
  | some d => .ok d
  | none => .error .notFound

/-- Delete: `Filesystem.deleteFile(\x7bpath, directory: Directory.Data\x7d)` removes
the file, rejecting with `NotFound` when it is absent. -/
def blobDeleteOp (w : World) (name : String) : Except Err World :=
  match blobGet w.blobs name with
  | some _ => .ok { w with blobs := blobRemove w.blobs name }
  | none => .error .notFound

/-- Index of the last occurrence of a character, as JavaScript
`String.prototype.lastIndexOf`: `some i` for the last index, `none` for
absent (JS `-1`). -/
def jsLastIndexOfAux : List Char → Char → Option Nat
  | [], _ => none
  | c :: cs, t =>
      match jsLastIndexOfAux cs t with
      | some i => some (i + 1)
      | none => if c = t then some 0 else none

/-- JS `s.lastIndexOf(c)`: the last index, or `-1` when absent. -/
def jsLastIndexOf (s : String) (c : Char) : Int :=
  match jsLastIndexOfAux s.data c with
  | some i => (i : Int)
  | none => -1

/-- JS `s.substr(start)` for a non-negative start: the suffix from that
character position. -/
def jsSubstr (s : String) (start : Int) : String :=
  String.mk (s.data.drop start.toNat)

/-- Expression `photo.filepath.substr(photo.filepath.lastIndexOf('/') + 1)` from
`deletePhoto`. -/
def filenameOf (filepath : String) : String :=
  jsSubstr filepath (jsLastIndexOf filepath '/' + 1)

/-- Modelled from the spec (§4.3 step 3): the last path-segment of a path —
the substring after the final `'/'` separator (the whole string when there is
no separator). Stated independently of the source's
`substr`/`lastIndexOf` expression, for comparison with it. -/
def lastSegment (filepath : String) : String :=
  String.mk (filepath.data.reverse.takeWhile (fun c => c ≠ '/')).reverse

/-- One escaped JSON character (`JSON.stringify` string escaping; the inputs
here are file names and URIs, so only the quote and backslash cases arise). -/
def jsonEscapeChar (c : Char) : List Char :=
  if c = '"' ∨ c = '\\' then ['\\', c] else [c]

/-- A JSON string literal. -/
def jsonString (s : String) : String :=
  "\"" ++ String.mk (s.data.foldr (fun c acc => jsonEscapeChar c ++ acc) []) ++ "\""

/-- Serialization `JSON.stringify` of one `UserPhoto`: `undefined` fields are omitted. -/
def serializePhoto (p : UserPhoto) : String :=
  match p.webviewPath with
  | some w =>
      "\x7b" ++ jsonString "filepath" ++ ":" ++ jsonString p.filepath ++ "," ++
        jsonString "webviewPath" ++ ":" ++ jsonString w ++ "\x7d"
  | none =>
      "\x7b" ++ jsonString "filepath" ++ ":" ++ jsonString p.filepath ++ "\x7d"

/-- Serialization `JSON.stringify` of the photo list. -/
def serializePhotos (l : List UserPhoto) : String :=
  "[" ++ String.intercalate "," (l.map serializePhoto) ++ "]"

/-- Result of one gallery operation: final world, event trace in program
order, the in-memory `photos` value once the operation settles, and `some e`
when the operation's promise rejects. -/
structure OpResult where
  world : World
  events : List Event
  photos : List UserPhoto
  error : Option Err
deriving Repr, DecidableEq

/-- Result of `savePicture`: final world, events, and the returned
`UserPhoto` or the rejection. -/
structure SaveResult where
  world : World
  events : List Event
  result : Except Err UserPhoto
deriving Repr

/-- Operation `savePicture(photo, fileName)` from the source: obtain `base64Data`
(hybrid: `Filesystem.readFile` of `photo.path`; web: `base64FromPath` of
`photo.webPath`), write it with `Filesystem.writeFile` under `fileName` in
`Directory.Data`, and return the `UserPhoto` (hybrid: `savedFile.uri` and its
`convertFileSrc` rewrite; web: `fileName` and the original `photo.webPath`). -/
def savePicture (env : Env) (w : World) (photo : Photo) (fileName : String) :
    SaveResult :=
  let step1 : List Event × Except Err String :=
    if env.isHybrid then
      let p := photo.path.getD ""
      ([.fsRead p], env.readCameraFile p)
    else
      let u := photo.webPath.getD ""
      ([.jsFetch u], base64FromPath env u)
  match step1 with
  | (ev1, .error e) => ⟨w, ev1, .error e⟩
  | (ev1, .ok base64Data) =>
      let ev2 := ev1 ++ [.fsWrite fileName base64Data]
      if env.writeFileOk then
        let w' := { w with blobs := blobInsert w.blobs fileName base64Data }
        let uri := env.writeUri fileName
        if env.isHybrid then
          ⟨w', ev2, .ok ⟨uri, some (env.convertFileSrc uri)⟩⟩
        else
          ⟨w', ev2, .ok ⟨fileName, photo.webPath⟩⟩
      else
        ⟨w, ev2, .error .ioError⟩

/-- Operation `takePhoto()` from the source: `Camera.getPhoto`, a timestamp file name
`Date.now() + '.jpeg'`, `savePicture`, `setPhotos([saved, ...photos])`, then
an un-awaited `Preferences.set` of the serialized new list (its effect lands
iff `indexSetOk`; its failure cannot reject `takePhoto`). -/
def takePhoto (env : Env) (photos : List UserPhoto) (w : World) : OpResult :=
  match env.cameraResult with
  | .error e => ⟨w, [.capture], photos, some e⟩
  | .ok photo =>
      let fileName := toString env.now ++ ".jpeg"
      let s := savePicture env w photo fileName
      match s.result with
      | .error e => ⟨s.world, .capture :: s.events, photos, some e⟩
      | .ok saved =>
          let newPhotos := saved :: photos
          let evs := .capture :: s.events ++
            [.setPhotos newPhotos, .indexWrite newPhotos]
          let w' := if env.indexSetOk
            then { s.world with index := some newPhotos } else s.world
          ⟨w', evs, newPhotos, none⟩

/-- Operation `deletePhoto(photo)` from the source: filter the list by `filepath`,
issue the un-awaited `Preferences.set` of the reduced list, derive the file
name with `substr(lastIndexOf('/') + 1)`, `await Filesystem.deleteFile`, and
only then `setPhotos(newPhotos)` — so a failing blob delete rejects the
promise before the in-memory update runs. -/
def deletePhoto (env : Env) (photos : List UserPhoto) (w : World)
    (photo : UserPhoto) : OpResult :=
  let newPhotos := photos.filter (fun p => p.filepath ≠ photo.filepath)
  let w1 := if env.indexSetOk then { w with index := some newPhotos } else w
  let filename := filenameOf photo.filepath
  let ev1 : List Event := [.indexWrite newPhotos, .blobDelete filename]
  match blobDeleteOp w1 filename with
  | .error e => ⟨w1, ev1, photos, some e⟩
  | .ok w2 => ⟨w2, ev1 ++ [.setPhotos newPhotos], newPhotos, none⟩

/-- The web branch of `loadSaved`'s `for` loop: read each photo's file from
`Directory.Data` and overwrite its `webviewPath` with
`data:image/jpeg;base64,` followed by the stored data; a rejecting read
aborts the whole loop. Returns the materialized records and the read events. -/
def materialize (w : World) : List UserPhoto →
    Except Err (List UserPhoto × List Event)
  | [] => .ok ([], [])
  | p :: ps =>
      match blobRead w p.filepath with
      | .error e => .error e
      | .ok data =>
          match materialize w ps with
          | .error e => .error e
          | .ok (rs, evs) =>
              .ok ({ p with
                      webviewPath :=
                        some ("data:image/jpeg;base64," ++ data) } :: rs,
                   .fsRead p.filepath :: evs)

/-- Operation `loadSaved()` from the source's `useEffect`: `Preferences.get` of
`'photos'` (`JSON.parse(value)` when present, `[]` when absent), then — on
non-hybrid platforms only — the materializing loop, then `setPhotos`. The
initial in-memory list is threaded so that a rejected run leaves it
unchanged. -/
def loadSaved (env : Env) (photos : List UserPhoto) (w : World) : OpResult :=
  let photosInPreferences := w.index.getD []
  if env.isHybrid then
    ⟨w, [.indexRead, .setPhotos photosInPreferences], photosInPreferences, none⟩
  else
    match materialize w photosInPreferences with
    | .error e => ⟨w, [.indexRead], photos, some e⟩
    | .ok (rs, evs) =>
        ⟨w, .indexRead :: evs ++ [.setPhotos rs], rs, none⟩

/-- The in-memory `photos` value at the moment the first occurrence of the
event `stop` is reached in a trace: the initial value, updated by every
`setPhotos` event seen before `stop`. -/
def memBefore (init : List UserPhoto) (evs : List Event) (stop : Event) :
    List UserPhoto :=
  match evs with
  | [] => init
  | e :: rest =>
      if e = stop then init
      else
        match e with
        | .setPhotos l => memBefore l rest stop
        | _ => memBefore init rest stop

/-- The events issued strictly before the first occurrence of `stop`. -/
def eventsBefore (evs : List Event) (stop : Event) : List Event :=
  evs.takeWhile (fun e => e ≠ stop)

/-! ## Concrete environments and worlds used by witnesses and counterexamples -/

/-- A browser-platform environment in which every external call succeeds:
the capture yields a transient `blob:` URI, the fetch yields a 10-byte JPEG
blob, and both stores accept writes. -/
def envOk : Env where
  isHybrid := false
  cameraResult := .ok ⟨some "/cam/1.jpeg", some "blob:cap1"⟩
  readCameraFile := fun _ => .ok "CAMDATA"
  fetchBlob := fun _ => .ok ⟨"image/jpeg", [1, 2, 3, 4, 5, 6, 7, 8, 9, 10]⟩
  readerFails := false
  readerNonString := false
  writeFileOk := true
  writeUri := fun n => "file:///DATA/" ++ n
  indexSetOk := true
  convertFileSrc := fun u => "cap://" ++ u
  now := 123

/-- Environment `envOk` on the native (hybrid) platform. -/
def envHybridOk : Env := { envOk with isHybrid := true }

/-- An empty world: no Index Store entry, no blobs. -/
def w0 : World := ⟨none, []⟩

/-! ## Helper lemmas -/

/-- Lemma: `savePicture` never touches the Index Store. -/
theorem savePicture_index (env : Env) (w : World) (photo : Photo)
    (fn : String) : (savePicture env w photo fn).world.index = w.index := by
  unfold savePicture
  cases hH : env.isHybrid <;> simp only [hH, Bool.false_eq_true, if_false,
    if_true, reduceIte]
  · cases hb : base64FromPath env (photo.webPath.getD "") <;> simp only [hb]
    cases hw : env.writeFileOk <;> simp [hw]
  · cases hr : env.readCameraFile (photo.path.getD "") <;> simp only [hr]
    cases hw : env.writeFileOk <;> simp [hw]

/-- Lemma: `savePicture` issues no Index Store write. -/
theorem savePicture_no_indexWrite (env : Env) (w : World) (photo : Photo)
    (fn : String) (v : List UserPhoto) :
    Event.indexWrite v ∉ (savePicture env w photo fn).events := by
  unfold savePicture
  cases hH : env.isHybrid <;> simp only [hH, Bool.false_eq_true, if_false,
    if_true, reduceIte]
  · cases hb : base64FromPath env (photo.webPath.getD "") <;> simp only [hb]
    · simp
    · cases hw : env.writeFileOk <;> simp [hw]
  · cases hr : env.readCameraFile (photo.path.getD "") <;> simp only [hr]
    · simp
    · cases hw : env.writeFileOk <;> simp [hw]

/-- A successful `takePhoto` prepends exactly one record. -/
theorem takePhoto_ok_cons (env : Env) (photos : List UserPhoto) (w : World)
    (h : (takePhoto env photos w).error = none) :
    ∃ c, (takePhoto env photos w).photos = c :: photos := by
  unfold takePhoto at *
  cases hc : env.cameraResult <;> simp only [hc] at h ⊢
  · simp at h
  · cases hs : (savePicture env w _ (toString env.now ++ ".jpeg")).result <;>
      simp only [hs] at h ⊢
    · simp at h
    · exact ⟨_, rfl⟩

/-! ## Claims -/

/-- C8: a `loadSaved` run on an Index Store whose `"photos"` key is absent
succeeds and sets the in-memory list to the empty list. -/
theorem loadSaved_empty_start (env : Env) (photos : List UserPhoto)
    (w : World) (h : w.index = none) :
    (loadSaved env photos w).error = none ∧
      (loadSaved env photos w).photos = [] := by
  cases hH : env.isHybrid <;>
    simp [loadSaved, h, hH, materialize, Option.getD]

/-- Witness for C8 at a concrete empty world, on both platforms. -/
theorem loadSaved_empty_start_witness :
    ((loadSaved envOk [] w0).error = none ∧ (loadSaved envOk [] w0).photos = [])
    ∧ ((loadSaved envHybridOk [] w0).error = none ∧
        (loadSaved envHybridOk [] w0).photos = []) :=
  ⟨loadSaved_empty_start envOk [] w0 rfl,
   loadSaved_empty_start envHybridOk [] w0 rfl⟩

/-- C2: a `takePhoto` invocation whose promise rejects (capture rejected,
camera-file read failure, encoding failure, or blob write failure — the only
rejection points, all before a successful blob write) leaves the in-memory
list and the Index Store value unchanged and issues no Index Store write. -/
theorem takePhoto_failure_no_mutation (env : Env) (photos : List UserPhoto)
    (w : World) (e : Err) (h : (takePhoto env photos w).error = some e) :
    (takePhoto env photos w).photos = photos ∧
      (takePhoto env photos w).world.index = w.index ∧
      ∀ v, Event.indexWrite v ∉ (takePhoto env photos w).events := by
  unfold takePhoto at *
  cases hc : env.cameraResult <;> simp only [hc] at h ⊢
  · simp
  · cases hs : (savePicture env w _ (toString env.now ++ ".jpeg")).result <;>
      simp only [hs] at h ⊢
    · refine ⟨by simp, savePicture_index env w _ _, ?_⟩
      intro v hv
      simp only [List.mem_cons] at hv
      rcases hv with hv | hv
      · exact Event.noConfusion hv
      · exact savePicture_no_indexWrite env w _ _ v hv
    · simp at h

/-- Witness for C2: a capture rejected with `UserCancelled` at a concrete
world mutates nothing. -/
theorem takePhoto_failure_no_mutation_witness :
    (takePhoto { envOk with cameraResult := .error .userCancelled }
        [⟨"a.jpeg", none⟩] ⟨some [⟨"a.jpeg", none⟩], []⟩).error =
      some Err.userCancelled ∧
    ((takePhoto { envOk with cameraResult := .error .userCancelled }
        [⟨"a.jpeg", none⟩] ⟨some [⟨"a.jpeg", none⟩], []⟩).photos =
      [⟨"a.jpeg", none⟩] ∧
    (takePhoto { envOk with cameraResult := .error .userCancelled }
        [⟨"a.jpeg", none⟩] ⟨some [⟨"a.jpeg", none⟩], []⟩).world.index =
      (⟨some [⟨"a.jpeg", none⟩], []⟩ : World).index ∧
    ∀ v, Event.indexWrite v ∉
      (takePhoto { envOk with cameraResult := .error .userCancelled }
        [⟨"a.jpeg", none⟩] ⟨some [⟨"a.jpeg", none⟩], []⟩).events) :=
  ⟨rfl, takePhoto_failure_no_mutation _ _ _ Err.userCancelled rfl⟩

/-- C1 counterexample: with every step succeeding except the (un-awaited)
`Preferences.set`, `takePhoto`'s promise still resolves, yet the serialized
Index Store value differs from the serialization of the in-memory list — the
invocation is successful but the two tiers are not equal. -/
theorem takePhoto_resolves_with_unsynced_index :
    (takePhoto { envOk with indexSetOk := false } [] ⟨some [], []⟩).error =
      none ∧
    ¬ ((takePhoto { envOk with indexSetOk := false } []
          ⟨some [], []⟩).world.index.map serializePhotos =
        some (serializePhotos
          (takePhoto { envOk with indexSetOk := false } []
            ⟨some [], []⟩).photos)) := by
  constructor
  · rfl
  · decide

/-- C1 amended: provided the (un-awaited) Index Store write itself completes
successfully, a resolved `takePhoto` leaves the serialized Index Store value
equal to the serialization of the in-memory list. -/
theorem takePhoto_index_matches_memory (env : Env) (photos : List UserPhoto)
    (w : World) (h1 : env.indexSetOk = true)
    (h2 : (takePhoto env photos w).error = none) :
    (takePhoto env photos w).world.index.map serializePhotos =
      some (serializePhotos (takePhoto env photos w).photos) := by
  unfold takePhoto at *
  cases hc : env.cameraResult <;> simp only [hc] at h2 ⊢
  · simp at h2
  · cases hs : (savePicture env w _ (toString env.now ++ ".jpeg")).result <;>
      simp only [hs] at h2 ⊢
    · simp at h2
    · simp [h1]

/-- Witness for the amended C1 at a concrete successful capture. -/
theorem takePhoto_index_matches_memory_witness :
    (takePhoto envOk [] w0).world.index.map serializePhotos =
      some (serializePhotos (takePhoto envOk [] w0).photos) :=
  takePhoto_index_matches_memory envOk [] w0 rfl rfl

/-- C3 counterexample: deleting `a/b.jpeg` when its Blob Store object is
absent makes `Filesystem.deleteFile` reject with `NotFound`; the `deletePhoto`
promise then rejects (it does not resolve) and the record is still in the
in-memory list (only the Index Store was reduced), contradicting the claim
that the operation still completes with the record removed from memory. -/
theorem deletePhoto_notFound_cex :
    (deletePhoto envOk [⟨"a/b.jpeg", none⟩] ⟨some [⟨"a/b.jpeg", none⟩], []⟩
      ⟨"a/b.jpeg", none⟩).error = some Err.notFound ∧
    (deletePhoto envOk [⟨"a/b.jpeg", none⟩] ⟨some [⟨"a/b.jpeg", none⟩], []⟩
      ⟨"a/b.jpeg", none⟩).photos = [⟨"a/b.jpeg", none⟩] ∧
    (deletePhoto envOk [⟨"a/b.jpeg", none⟩] ⟨some [⟨"a/b.jpeg", none⟩], []⟩
      ⟨"a/b.jpeg", none⟩).world.index = some [] := by
  decide

/-- C3 amended: when the target's Blob Store object is absent, the blob
delete rejects with `NotFound`, the `deletePhoto` promise rejects, and the
in-memory list is left unchanged (the `setPhotos` after the await never
runs), while the Index Store — written before the await, un-awaited — already
holds the reduced list whenever that write completes. -/
theorem deletePhoto_blobMissing (env : Env) (photos : List UserPhoto)
    (w : World) (photo : UserPhoto)
    (h : blobGet w.blobs (filenameOf photo.filepath) = none) :
    (deletePhoto env photos w photo).error = some Err.notFound ∧
    (deletePhoto env photos w photo).photos = photos ∧
    (env.indexSetOk = true → (deletePhoto env photos w photo).world.index =
      some (photos.filter (fun p => p.filepath ≠ photo.filepath))) := by
  unfold deletePhoto
  cases hS : env.indexSetOk <;> simp [hS, blobDeleteOp, h]

/-- Witness for the amended C3 at a concrete world with the blob absent. -/
theorem deletePhoto_blobMissing_witness :
    blobGet (⟨some [⟨"a/b.jpeg", none⟩], []⟩ : World).blobs
      (filenameOf "a/b.jpeg") = none ∧
    ((deletePhoto envHybridOk [⟨"a/b.jpeg", none⟩]
        ⟨some [⟨"a/b.jpeg", none⟩], []⟩ ⟨"a/b.jpeg", none⟩).error =
      some Err.notFound ∧
    (deletePhoto envHybridOk [⟨"a/b.jpeg", none⟩]
        ⟨some [⟨"a/b.jpeg", none⟩], []⟩ ⟨"a/b.jpeg", none⟩).photos =
      [⟨"a/b.jpeg", none⟩] ∧
    (envHybridOk.indexSetOk = true →
      (deletePhoto envHybridOk [⟨"a/b.jpeg", none⟩]
        ⟨some [⟨"a/b.jpeg", none⟩], []⟩ ⟨"a/b.jpeg", none⟩).world.index =
      some ([⟨"a/b.jpeg", none⟩].filter
        (fun p => p.filepath ≠ UserPhoto.filepath ⟨"a/b.jpeg", none⟩)))) :=
  ⟨rfl, deletePhoto_blobMissing envHybridOk [⟨"a/b.jpeg", none⟩]
    ⟨some [⟨"a/b.jpeg", none⟩], []⟩ ⟨"a/b.jpeg", none⟩ rfl⟩

/-- C4 counterexample: in a concrete successful delete run, at the moment the
blob delete is awaited the in-memory list still holds the pre-delete value
`[a/b.jpeg]` — not the reduced list `[]` that the operation finally installs —
contradicting the claim that memory already equals the reduced list there. -/
theorem deletePhoto_memory_late_cex :
    (deletePhoto envOk [⟨"a/b.jpeg", none⟩]
      ⟨some [⟨"a/b.jpeg", none⟩], [("b.jpeg", "D")]⟩
      ⟨"a/b.jpeg", none⟩).error = none ∧
    memBefore [⟨"a/b.jpeg", none⟩]
      (deletePhoto envOk [⟨"a/b.jpeg", none⟩]
        ⟨some [⟨"a/b.jpeg", none⟩], [("b.jpeg", "D")]⟩
        ⟨"a/b.jpeg", none⟩).events
      (Event.blobDelete "b.jpeg") = [⟨"a/b.jpeg", none⟩] ∧
    (deletePhoto envOk [⟨"a/b.jpeg", none⟩]
      ⟨some [⟨"a/b.jpeg", none⟩], [("b.jpeg", "D")]⟩
      ⟨"a/b.jpeg", none⟩).photos = [] := by
  decide

/-- C4 amended: in every `deletePhoto` run the Index Store write is issued
with the reduced list before the blob delete is awaited, but at that
suspension point the in-memory list still holds the pre-delete value; it is
set to the reduced list only after the blob delete resolves. -/
theorem deletePhoto_index_before_blobDelete (env : Env)
    (photos : List UserPhoto) (w : World) (photo : UserPhoto) :
    Event.indexWrite (photos.filter (fun p => p.filepath ≠ photo.filepath)) ∈
      eventsBefore (deletePhoto env photos w photo).events
        (Event.blobDelete (filenameOf photo.filepath)) ∧
    memBefore photos (deletePhoto env photos w photo).events
        (Event.blobDelete (filenameOf photo.filepath)) = photos ∧
    ((deletePhoto env photos w photo).error = none →
      (deletePhoto env photos w photo).photos =
        photos.filter (fun p => p.filepath ≠ photo.filepath)) := by
  simp only [deletePhoto]
  split <;> simp [eventsBefore, memBefore]

/-- Characterization of the web materializing loop: it succeeds with one
record per persisted record, keeping `filepath` and overwriting
`webviewPath` with the data URI built from the blob read. -/
theorem materialize_spec (w : World) (l : List UserPhoto)
    (rs : List UserPhoto) (evs : List Event)
    (h : materialize w l = .ok (rs, evs)) :
    rs.length = l.length ∧
    ∀ (i : Nat) (pi : UserPhoto), l[i]? = some pi → ∃ d, blobRead w pi.filepath = .ok d ∧
      rs[i]? = some ⟨pi.filepath, some ("data:image/jpeg;base64," ++ d)⟩ := by
  induction l generalizing rs evs with
  | nil =>
    simp only [materialize, Except.ok.injEq] at h
    obtain ⟨h1, h2⟩ := Prod.mk.injEq .. ▸ h
    subst h1
    simp
  | cons p ps ih =>
    simp only [materialize] at h
    cases hb : blobRead w p.filepath with
    | error e => rw [hb] at h; exact absurd h (by simp)
    | ok data =>
      rw [hb] at h
      cases hm : materialize w ps with
      | error e => rw [hm] at h; exact absurd h (by simp)
      | ok pair =>
        rw [hm] at h
        obtain ⟨rs', evs'⟩ := pair
        simp only [Except.ok.injEq, Prod.mk.injEq] at h
        obtain ⟨h1, h2⟩ := h
        subst h1
        obtain ⟨hlen, hpt⟩ := ih rs' evs' hm
        refine ⟨by simp [hlen], ?_⟩
        intro i pi hi
        cases i with
        | zero =>
          simp only [List.getElem?_cons_zero, Option.some.injEq] at hi
          subst hi
          exact ⟨data, hb, by simp⟩
        | succ j =>
          simp only [List.getElem?_cons_succ] at hi ⊢
          exact hpt j pi hi

/-- The materializing loop preserves the `filepath` sequence exactly. -/
theorem materialize_filepaths (w : World) (l : List UserPhoto)
    (rs : List UserPhoto) (evs : List Event)
    (h : materialize w l = .ok (rs, evs)) :
    rs.map UserPhoto.filepath = l.map UserPhoto.filepath := by
  induction l generalizing rs evs with
  | nil =>
    simp only [materialize, Except.ok.injEq] at h
    obtain ⟨h1, h2⟩ := Prod.mk.injEq .. ▸ h
    subst h1
    simp
  | cons p ps ih =>
    simp only [materialize] at h
    cases hb : blobRead w p.filepath with
    | error e => rw [hb] at h; exact absurd h (by simp)
    | ok data =>
      rw [hb] at h
      cases hm : materialize w ps with
      | error e => rw [hm] at h; exact absurd h (by simp)
      | ok pair =>
        rw [hm] at h
        obtain ⟨rs', evs'⟩ := pair
        simp only [Except.ok.injEq, Prod.mk.injEq] at h
        obtain ⟨h1, h2⟩ := h
        subst h1
        simp [ih rs' evs' hm]

/-- C5 counterexample: on the native (hybrid) platform, a `loadSaved` run
over an index holding a record with a stored `webviewPath` materializes that
record with the stored `webviewPath` kept verbatim — not absent — so the
stored display path is not ignored. -/
theorem loadSaved_hybrid_keeps_webviewPath_cex :
    (loadSaved envHybridOk []
      ⟨some [⟨"d/a.jpeg", some "stale://x"⟩], []⟩).error = none ∧
    (loadSaved envHybridOk []
      ⟨some [⟨"d/a.jpeg", some "stale://x"⟩], []⟩).photos.map
        UserPhoto.webviewPath = [some "stale://x"] := by
  decide

/-- C5 amended: on browser platforms a successful `loadSaved` replaces every
record's `webviewPath` with `data:image/jpeg;base64,` + the bytes read from
the Blob Store, never the persisted value; on native (hybrid) platforms the
records are installed exactly as deserialized, keeping whatever `webviewPath`
the persisted index holds (absent only if it was absent in the index). -/
theorem loadSaved_materialization (env : Env) (photos l : List UserPhoto)
    (w : World) (h : w.index = some l) :
    (env.isHybrid = true → (loadSaved env photos w).photos = l) ∧
    (env.isHybrid = false → (loadSaved env photos w).error = none →
      (loadSaved env photos w).photos.length = l.length ∧
      ∀ (i : Nat) (pi : UserPhoto), l[i]? = some pi → ∃ d, blobRead w pi.filepath = .ok d ∧
        (loadSaved env photos w).photos[i]? =
          some ⟨pi.filepath, some ("data:image/jpeg;base64," ++ d)⟩) := by
  have hg : w.index.getD [] = l := by rw [h]; rfl
  constructor
  · intro hH
    simp [loadSaved, hH, hg]
  · intro hH
    simp only [loadSaved, hH, hg, Bool.false_eq_true, if_false]
    cases hm : materialize w l with
    | error e => simp
    | ok pair =>
      obtain ⟨rs, evs⟩ := pair
      intro _
      exact materialize_spec w l rs evs hm

/-- Witness for the amended C5: one persisted record with a stale stored
`webviewPath`, whose blob holds `"DATA"`, materializes on the browser
platform with the freshly synthesized data URI. -/
theorem loadSaved_materialization_witness :
    (loadSaved envOk []
      ⟨some [⟨"123.jpeg", some "old"⟩], [("123.jpeg", "DATA")]⟩).photos.length
      = 1 ∧
    ∃ d, blobRead ⟨some [⟨"123.jpeg", some "old"⟩], [("123.jpeg", "DATA")]⟩
        "123.jpeg" = .ok d ∧
      (loadSaved envOk []
        ⟨some [⟨"123.jpeg", some "old"⟩], [("123.jpeg", "DATA")]⟩).photos[0]?
        = some ⟨"123.jpeg", some ("data:image/jpeg;base64," ++ d)⟩ := by
  have h := (loadSaved_materialization envOk [] [⟨"123.jpeg", some "old"⟩]
    ⟨some [⟨"123.jpeg", some "old"⟩], [("123.jpeg", "DATA")]⟩ rfl).2 rfl rfl
  exact ⟨h.1, h.2 0 ⟨"123.jpeg", some "old"⟩ rfl⟩

/-- C7: two successful captures prepend (`[C2, C1, ...previous]`), and a
successful `loadSaved` preserves the persisted index order of records
(witnessed by the `filepath` sequence, the durable identifier). -/
theorem capture_prepends_and_load_preserves_order :
    (∀ env1 env2 photos w,
      (takePhoto env1 photos w).error = none →
      (takePhoto env2 (takePhoto env1 photos w).photos
          (takePhoto env1 photos w).world).error = none →
      ∃ c2 c1, (takePhoto env1 photos w).photos = c1 :: photos ∧
        (takePhoto env2 (takePhoto env1 photos w).photos
          (takePhoto env1 photos w).world).photos = c2 :: c1 :: photos) ∧
    (∀ env photos l w, w.index = some l →
      (loadSaved env photos w).error = none →
      (loadSaved env photos w).photos.map UserPhoto.filepath =
        l.map UserPhoto.filepath) := by
  constructor
  · intro env1 env2 photos w h1 h2
    obtain ⟨c1, hc1⟩ := takePhoto_ok_cons env1 photos w h1
    obtain ⟨c2, hc2⟩ := takePhoto_ok_cons env2 _ _ h2
    exact ⟨c2, c1, hc1, by rw [hc2, hc1]⟩
  · intro env photos l w h herr
    have hg : w.index.getD [] = l := by rw [h]; rfl
    cases hH : env.isHybrid with
    | true => simp [loadSaved, hH, hg]
    | false =>
      simp only [loadSaved, hH, hg, Bool.false_eq_true, if_false] at herr ⊢
      cases hm : materialize w l with
      | error e => rw [hm] at herr; simp at herr
      | ok pair =>
        obtain ⟨rs, evs⟩ := pair
        simpa using materialize_filepaths w l rs evs hm

/-- Witness for C7: two successful concrete captures on the browser platform
and a concrete successful `loadSaved`. -/
theorem capture_prepends_witness :
    (∃ c2 c1, (takePhoto envOk [] w0).photos = c1 :: [] ∧
      (takePhoto { envOk with now := 124 } (takePhoto envOk [] w0).photos
        (takePhoto envOk [] w0).world).photos = c2 :: c1 :: []) ∧
    (loadSaved envOk []
      ⟨some [⟨"123.jpeg", some "old"⟩], [("123.jpeg", "DATA")]⟩).photos.map
        UserPhoto.filepath =
      [⟨"123.jpeg", some "old"⟩].map UserPhoto.filepath :=
  ⟨capture_prepends_and_load_preserves_order.1 envOk
      { envOk with now := 124 } [] w0 rfl rfl,
   capture_prepends_and_load_preserves_order.2 envOk []
      [⟨"123.jpeg", some "old"⟩]
      ⟨some [⟨"123.jpeg", some "old"⟩], [("123.jpeg", "DATA")]⟩ rfl rfl⟩

/-- Lemma: `lastIndexOf` finds no index exactly when the character is absent. -/
theorem jsLastIndexOfAux_none_iff (l : List Char) (t : Char) :
    jsLastIndexOfAux l t = none ↔ t ∉ l := by
  induction l with
  | nil => simp [jsLastIndexOfAux]
  | cons c cs ih =>
    simp only [jsLastIndexOfAux]
    cases h : jsLastIndexOfAux cs t with
    | none =>
      have hn : t ∉ cs := ih.mp h
      by_cases hc : c = t <;> simp [hc, hn]
      intro he; exact hc he.symm
    | some i =>
      have hm : t ∈ cs := by
        by_contra hn
        rw [ih.mpr hn] at h
        exact Option.noConfusion h
      simp [hm]

/-- Lemma: `takeWhile` passes over a fully satisfying first segment. -/
theorem takeWhile_append_all {α : Type} (p : α → Bool) (xs ys : List α)
    (h : ∀ a ∈ xs, p a) :
    (xs ++ ys).takeWhile p = xs ++ ys.takeWhile p := by
  induction xs with
  | nil => simp
  | cons a xs ih =>
    have ha : p a := h a (List.mem_cons_self a xs)
    simp only [List.cons_append, List.takeWhile_cons, ha, if_true]
    simp [ih (fun b hb => h b (List.mem_cons_of_mem a hb))]

/-- Lemma: `takeWhile` stops inside a first segment containing a failing element. -/
theorem takeWhile_append_stops {α : Type} (p : α → Bool) (xs ys : List α)
    (a : α) (ha : a ∈ xs) (hp : p a = false) :
    (xs ++ ys).takeWhile p = xs.takeWhile p := by
  induction xs with
  | nil => cases ha
  | cons b xs ih =>
    cases hb : p b with
    | false => simp [List.takeWhile_cons, hb]
    | true =>
      have hax : a ∈ xs := by
        rcases List.mem_cons.mp ha with h1 | h1
        · subst h1; rw [hb] at hp; exact Bool.noConfusion hp
        · exact h1
      simp [List.takeWhile_cons, hb, ih hax]

/-- The suffix of a character list after the last `'/'` (drop past the last
index) equals the reversed longest slash-free suffix. -/
theorem drop_lastIndexOf (l : List Char) :
    l.drop ((jsLastIndexOfAux l '/').elim 0 (· + 1)) =
      (l.reverse.takeWhile (fun c => c ≠ '/')).reverse := by
  induction l with
  | nil => simp [jsLastIndexOfAux]
  | cons c cs ih =>
    simp only [jsLastIndexOfAux, List.reverse_cons]
    cases h : jsLastIndexOfAux cs '/' with
    | none =>
      have hn : '/' ∉ cs := (jsLastIndexOfAux_none_iff cs '/').mp h
      have hall : ∀ a ∈ cs.reverse, (fun c => decide (c ≠ '/')) a = true := by
        intro a haa
        have : a ∈ cs := List.mem_reverse.mp haa
        simp only [decide_eq_true_eq]
        intro he; subst he; exact hn this
      rw [takeWhile_append_all _ cs.reverse [c] hall]
      by_cases hc : c = '/'
      · subst hc
        simp only [if_true, reduceIte, Option.elim]
        simp [List.takeWhile]
      · simp only [hc, if_false, reduceIte, Option.elim]
        rw [h] at ih
        simp only [Option.elim] at ih
        simp [List.takeWhile, hc, List.drop_zero]
    | some i =>
      have hm : '/' ∈ cs := by
        by_contra hn
        rw [(jsLastIndexOfAux_none_iff cs '/').mpr hn] at h
        exact Option.noConfusion h
      have hmr : '/' ∈ cs.reverse := List.mem_reverse.mpr hm
      rw [takeWhile_append_stops _ cs.reverse [c] '/' hmr (by simp)]
      rw [h] at ih
      simp only [Option.elim] at ih ⊢
      simpa [List.drop_succ_cons] using ih

/-- The source's `substr(lastIndexOf('/') + 1)` computes exactly the last
path-segment (the substring after the final `'/'`, or the whole string when
there is no separator). -/
theorem filenameOf_eq_lastSegment (s : String) :
    filenameOf s = lastSegment s := by
  unfold filenameOf lastSegment jsSubstr jsLastIndexOf
  have hd := drop_lastIndexOf s.data
  cases h : jsLastIndexOfAux s.data '/' with
  | none =>
    rw [h] at hd
    simp only [Option.elim] at hd
    simp [h, hd]
  | some i =>
    rw [h] at hd
    simp only [Option.elim] at hd
    have : ((i : Int) + 1).toNat = i + 1 := by omega
    simp [h, this, hd]

/-- C9: every `deletePhoto` invocation passes exactly the last path-segment
of the target's `filepath` (the substring after the final `'/'`) as the Blob
Store object name of the blob delete. -/
theorem deletePhoto_blob_name (env : Env) (photos : List UserPhoto)
    (w : World) (photo : UserPhoto) :
    Event.blobDelete (lastSegment photo.filepath) ∈
      (deletePhoto env photos w photo).events := by
  rw [← filenameOf_eq_lastSegment]
  simp only [deletePhoto]
  split <;> simp

/-- A write is immediately readable under its name. -/
theorem blobGet_insert (blobs : List (String × String)) (n d : String) :
    blobGet (blobInsert blobs n d) n = some d := by
  simp [blobInsert, blobGet]

/-- C6 counterexample: on the browser platform with a 10-byte fetched body,
the value written to the Blob Store is not the bare base64 encoding of the
bytes but the full data URL (prefix included), and after a reload the
record's `webviewPath` is the prefix applied a second time on top of the
stored data URL — it does not equal
`"data:image/jpeg;base64," + base64(bytes)`. -/
theorem roundTrip_cex :
    blobGet (takePhoto envOk [] w0).world.blobs "123.jpeg" ≠
      some (base64String [1, 2, 3, 4, 5, 6, 7, 8, 9, 10]) ∧
    blobGet (takePhoto envOk [] w0).world.blobs "123.jpeg" =
      some ("data:image/jpeg;base64," ++
        base64String [1, 2, 3, 4, 5, 6, 7, 8, 9, 10]) ∧
    (loadSaved envOk (takePhoto envOk [] w0).photos
        (takePhoto envOk [] w0).world).photos.map UserPhoto.webviewPath ≠
      [some ("data:image/jpeg;base64," ++
        base64String [1, 2, 3, 4, 5, 6, 7, 8, 9, 10])] := by
  decide

/-- C6 amended: on the browser platform a successful capture-and-save writes
the full data URL `"data:<mime>;base64," + base64(bytes)` (not the bare
base64) under `"<timestamp>.jpeg"`, and a subsequent `loadSaved` yields a
record with the same `filepath` whose `webviewPath` is
`"data:image/jpeg;base64,"` + the stored data URL — a doubly-prefixed
string, which does not decode back to the bytes by stripping one prefix. -/
theorem browser_roundTrip (env : Env) (w : World) (photo : Photo)
    (u : String) (b : JsBlob)
    (hH : env.isHybrid = false)
    (hc : env.cameraResult = .ok photo)
    (hw : photo.webPath = some u)
    (hf : env.fetchBlob u = .ok b)
    (hr1 : env.readerFails = false)
    (hr2 : env.readerNonString = false)
    (hwr : env.writeFileOk = true)
    (hset : env.indexSetOk = true) :
    (takePhoto env [] w).error = none ∧
    Event.fsWrite (toString env.now ++ ".jpeg")
        ("data:" ++ b.mime ++ ";base64," ++ base64String b.bytes) ∈
      (takePhoto env [] w).events ∧
    blobGet (takePhoto env [] w).world.blobs (toString env.now ++ ".jpeg") =
      some ("data:" ++ b.mime ++ ";base64," ++ base64String b.bytes) ∧
    (takePhoto env [] w).photos = [⟨toString env.now ++ ".jpeg", some u⟩] ∧
    (loadSaved env (takePhoto env [] w).photos
        (takePhoto env [] w).world).photos =
      [⟨toString env.now ++ ".jpeg",
        some ("data:image/jpeg;base64," ++
          ("data:" ++ b.mime ++ ";base64," ++ base64String b.bytes))⟩] := by
  simp [takePhoto, savePicture, base64FromPath, readAsDataURL, loadSaved,
    materialize, blobRead, blobInsert, blobGet, blobRemove,
    hH, hc, hw, hf, hr1, hr2, hwr, hset]

/-- Witness for the amended C6 at the concrete browser environment. -/
theorem browser_roundTrip_witness :
    (takePhoto envOk [] w0).error = none ∧
    Event.fsWrite (toString envOk.now ++ ".jpeg")
        ("data:" ++ "image/jpeg" ++ ";base64," ++
          base64String [1, 2, 3, 4, 5, 6, 7, 8, 9, 10]) ∈
      (takePhoto envOk [] w0).events ∧
    blobGet (takePhoto envOk [] w0).world.blobs
        (toString envOk.now ++ ".jpeg") =
      some ("data:" ++ "image/jpeg" ++ ";base64," ++
        base64String [1, 2, 3, 4, 5, 6, 7, 8, 9, 10]) ∧
    (takePhoto envOk [] w0).photos =
      [⟨toString envOk.now ++ ".jpeg", some "blob:cap1"⟩] ∧
    (loadSaved envOk (takePhoto envOk [] w0).photos
        (takePhoto envOk [] w0).world).photos =
      [⟨toString envOk.now ++ ".jpeg",
        some ("data:image/jpeg;base64," ++
          ("data:" ++ "image/jpeg" ++ ";base64," ++
            base64String [1, 2, 3, 4, 5, 6, 7, 8, 9, 10]))⟩] :=
  browser_roundTrip envOk w0 ⟨some "/cam/1.jpeg", some "blob:cap1"⟩
    "blob:cap1" ⟨"image/jpeg", [1, 2, 3, 4, 5, 6, 7, 8, 9, 10]⟩
    rfl rfl rfl rfl rfl rfl rfl rfl

/-- C10: `base64FromPath` resolves only with the reader's full data URL —
beginning with the `data:` scheme and carrying the base64 payload after
`;base64,`, never a bare base64 string — or rejects (when the fetch
succeeded: with the reader's error or with the
`'method did not return a string'` rejection); and on the browser platform a
successful `savePicture` writes exactly this resolved data URL, prefix
included, to the Blob Store. -/
theorem base64FromPath_full_dataURL :
    (∀ env path b, env.fetchBlob path = .ok b →
      base64FromPath env path =
          .ok ("data:" ++ b.mime ++ ";base64," ++ base64String b.bytes) ∨
        base64FromPath env path = .error .readerError ∨
        base64FromPath env path = .error .notAString) ∧
    (∀ env path s, base64FromPath env path = .ok s →
      (∃ b, env.fetchBlob path = .ok b ∧
        s = "data:" ++ b.mime ++ ";base64," ++ base64String b.bytes) ∧
      ∃ rest, s = "data:" ++ rest) ∧
    (∀ env w photo fn p, env.isHybrid = false →
      (savePicture env w photo fn).result = .ok p →
      ∃ s, base64FromPath env (photo.webPath.getD "") = .ok s ∧
        Event.fsWrite fn s ∈ (savePicture env w photo fn).events) := by
  refine ⟨?_, ?_, ?_⟩
  · intro env path b hf
    simp only [base64FromPath, hf]
    cases h1 : env.readerFails <;> cases h2 : env.readerNonString <;>
      simp [readAsDataURL]
  · intro env path s hs
    cases hf : env.fetchBlob path with
    | error e => simp only [base64FromPath, hf] at hs; exact absurd hs (by simp)
    | ok b =>
      simp only [base64FromPath, hf] at hs
      cases h1 : env.readerFails <;> rw [h1] at hs <;> simp only [if_true,
        if_false, Bool.false_eq_true, reduceIte] at hs
      · cases h2 : env.readerNonString <;> rw [h2] at hs <;>
          simp only [if_true, if_false, Bool.false_eq_true, reduceIte] at hs
        · have hs' : s = readAsDataURL b := by
            exact (Except.ok.injEq .. ▸ hs).symm
          refine ⟨⟨b, rfl, by rw [hs']; rfl⟩,
            ⟨b.mime ++ (";base64," ++ base64String b.bytes), ?_⟩⟩
          rw [hs']
          simp [readAsDataURL, String.append_assoc]
        · exact absurd hs (by simp)
      · exact absurd hs (by simp)
  · intro env w photo fn p hH hr
    cases hb : base64FromPath env (photo.webPath.getD "") with
    | error e => simp [savePicture, hH, hb] at hr
    | ok d =>
      cases hwr : env.writeFileOk with
      | false => simp [savePicture, hH, hb, hwr] at hr
      | true =>
        refine ⟨d, rfl, ?_⟩
        simp [savePicture, hH, hb, hwr]

/-- Witness for C10 at the concrete browser environment: the helper resolves
with the full data URL and `savePicture` writes it. -/
theorem base64FromPath_full_dataURL_witness :
    (base64FromPath envOk "blob:cap1" =
        .ok ("data:" ++ "image/jpeg" ++ ";base64," ++
          base64String [1, 2, 3, 4, 5, 6, 7, 8, 9, 10]) ∨
      base64FromPath envOk "blob:cap1" = .error .readerError ∨
      base64FromPath envOk "blob:cap1" = .error .notAString) ∧
    ∃ s, base64FromPath envOk
        ((⟨some "/cam/1.jpeg", some "blob:cap1"⟩ : Photo).webPath.getD "") =
        .ok s ∧
      Event.fsWrite "123.jpeg" s ∈
        (savePicture envOk w0 ⟨some "/cam/1.jpeg", some "blob:cap1"⟩
          "123.jpeg").events :=
  ⟨base64FromPath_full_dataURL.1 envOk "blob:cap1"
      ⟨"image/jpeg", [1, 2, 3, 4, 5, 6, 7, 8, 9, 10]⟩ rfl,
   base64FromPath_full_dataURL.2.2 envOk w0
      ⟨some "/cam/1.jpeg", some "blob:cap1"⟩ "123.jpeg"
      ⟨"123.jpeg", some "blob:cap1"⟩ rfl rfl⟩

/-- Witness for the amended C4 at a concrete successful delete. -/
theorem deletePhoto_index_before_blobDelete_witness :
    Event.indexWrite [] ∈ eventsBefore
        (deletePhoto envOk [⟨"a/b.jpeg", none⟩]
          ⟨some [⟨"a/b.jpeg", none⟩], [("b.jpeg", "D")]⟩
          ⟨"a/b.jpeg", none⟩).events (Event.blobDelete "b.jpeg") ∧
    memBefore [⟨"a/b.jpeg", none⟩]
        (deletePhoto envOk [⟨"a/b.jpeg", none⟩]
          ⟨some [⟨"a/b.jpeg", none⟩], [("b.jpeg", "D")]⟩
          ⟨"a/b.jpeg", none⟩).events (Event.blobDelete "b.jpeg") =
      [⟨"a/b.jpeg", none⟩] ∧
    ((deletePhoto envOk [⟨"a/b.jpeg", none⟩]
        ⟨some [⟨"a/b.jpeg", none⟩], [("b.jpeg", "D")]⟩
        ⟨"a/b.jpeg", none⟩).error = none →
      (deletePhoto envOk [⟨"a/b.jpeg", none⟩]
        ⟨some [⟨"a/b.jpeg", none⟩], [("b.jpeg", "D")]⟩
        ⟨"a/b.jpeg", none⟩).photos = []) :=
  deletePhoto_index_before_blobDelete envOk [⟨"a/b.jpeg", none⟩]
    ⟨some [⟨"a/b.jpeg", none⟩], [("b.jpeg", "D")]⟩ ⟨"a/b.jpeg", none⟩
